import Mathlib

/-!
Verification of the SimpleTuner GH200 support utilities.

This file shallowly embeds the Python modules
`simpletuner/gh200/in_memory_backend.py`, `simpletuner/gh200/uvm.py` and
`gh200_diagnostic.py` into Lean and proves (or refutes) the frozen claims
about them.  Python `bytes` values are modelled as `List Nat`, Python
`dict` as an insertion-ordered association list, and stateful methods as
explicit state-passing functions returning a (result, new-state) pair.
-/

namespace GH200

/-- Python `bytes` payloads, modelled as a list of byte values. -/
abbrev Bytes := List Nat

/-! ### Python `dict` model (insertion ordered association list) -/

/-- Lookup in an insertion-ordered association list, the model of
`d[key]` / `d.get(key)` on a Python `dict`. -/
def dictGet (k : String) (st : List (String × Bytes)) : Option Bytes :=
  (st.find? (fun kv => kv.1 = k)).map (·.2)

/-- Model of Python `d[key] = value`: replace in place when the key is
present, append otherwise (insertion order is preserved). -/
def dictInsert (k : String) (v : Bytes) : List (String × Bytes) → List (String × Bytes)
  | [] => [(k, v)]
  | kv :: rest => if kv.1 = k then (k, v) :: rest else kv :: dictInsert k v rest

/-- Model of Python `d.pop(key, None)`: remove the entry with the key
when present, leave the dict as it is otherwise. -/
def dictErase (k : String) : List (String × Bytes) → List (String × Bytes)
  | [] => []
  | kv :: rest => if kv.1 = k then rest else kv :: dictErase k rest

/-! ### String and path helpers

The Python code manipulates POSIX paths through `pathlib.Path`.  We model
paths as plain strings, assumed normalized (absolute, no trailing slash,
no `..` or `.` components), which is what `Path.resolve()` produces for
the staged files. -/

/-- Structural model of Python `str.lower()` (ASCII case mapping, as
`Char.toLower`), written over the character list so it reduces in the
kernel. -/
def strLower (s : String) : String := String.mk (s.toList.map Char.toLower)

/-- Structural model of Python `str.upper()`. -/
def strUpper (s : String) : String := String.mk (s.toList.map Char.toUpper)

/-- Structural model of Python `str.strip()`: drop whitespace from both
ends. -/
def strTrim (s : String) : String :=
  String.mk (((s.toList.dropWhile Char.isWhitespace).reverse.dropWhile
    Char.isWhitespace).reverse)

/-- Model of Python `str.split(sep)` for a one-character separator:
splitting the empty string gives `[""]`, adjacent separators give empty
pieces, as in Python. -/
def splitOnChar (c : Char) : List Char → List (List Char)
  | [] => [[]]
  | x :: rest =>
    match splitOnChar c rest with
    | [] => [[]]
    | h :: ts => if x = c then [] :: h :: ts else (x :: h) :: ts

/-- Model of Python `needle in haystack` on strings (substring test). -/
def strContains (hay needle : String) : Bool :=
  (List.range (hay.toList.length + 1)).any
    (fun i => needle.toList.isPrefixOf (hay.toList.drop i))

/-- Model of the truthiness test `flag.strip().lower() in {"1", "true", "yes", "on"}`
shared by `gh200_uvm_enabled` and the diagnostic script's `_truthy`. -/
def truthyFlag (flag : String) : Bool :=
  ["1", "true", "yes", "on"].contains (strLower (strTrim flag))

/-- Model of `ext.lower().lstrip(".")`, the extension normalization used in
`GH200InMemoryBackend.__init__` and `list_files`. -/
def normalizeExt (e : String) : String :=
  String.mk ((strLower e).toList.dropWhile (fun c => c = '.'))

/-- True when `path` lies strictly under directory `dir` (the directory
prefix followed by a path separator). -/
def isUnder (dir path : String) : Bool :=
  (dir.toList ++ ['/']).isPrefixOf path.toList

/-- Strip the leading `dir ++ "/"` from `path`. -/
def stripDir (dir path : String) : String :=
  String.mk (path.toList.drop (dir.toList.length + 1))

/-- Model of `GH200InMemoryBackend._relative_key`: `Path(path).relative_to(dir)`
when `path` is the directory itself or lies under it, otherwise (the
`ValueError` branch) the path unchanged. -/
def relativeKey (dir path : String) : String :=
  if path = dir then "."
  else if isUnder dir path then stripDir dir path
  else path

/-- Model of `os.path.isabs` on POSIX: the path starts with a slash. -/
def isAbsPath (p : String) : Bool :=
  match p.toList with
  | '/' :: _ => true
  | _ => false

/-- Model of `pathlib`'s `dir / rel` join for a relative `rel`. -/
def strJoin (dir rel : String) : String := dir ++ "/" ++ rel

/-- Model of `Path(rel).suffix`: the final component's extension including
the dot, empty when the name has no dot in an extension position
(CPython: the last dot index `i` must satisfy `0 < i < len(name) - 1`). -/
def pathSuffix (p : String) : String :=
  let cs := (splitOnChar '/' p.toList).getLastD []
  match ((List.range cs.length).filter (fun i => cs.get? i = some '.')).getLast? with
  | some i => if 0 < i ∧ i < cs.length - 1 then String.mk (cs.drop i) else ""
  | none => ""

/-- Model of `str(Path(rel).parent)` for a relative path: everything before
the final separator, the string `"."` when there is none. -/
def pathParent (p : String) : String :=
  let parts := splitOnChar '/' p.toList
  if parts.length ≤ 1 then "." else String.mk (List.intercalate ['/'] parts.dropLast)

/-! ### Compression resolution -/

/-- Python exceptions surfaced by the embedded code. -/
inductive PyErr
  | keyError (key : String)
  | fileNotFoundError (path : String)
  | typeError
  | notImplementedError
  | memoryError
  | valueError (msg : String)
  | runtimeError (msg : String)
  deriving DecidableEq, Repr

/-- An external compression library: a matched compress/decompress pair.
For zlib the level argument of `zlib.compress(data, level=1)` is folded
into the `compress` function. -/
structure CompressionLib where
  compress : Bytes → Bytes
  decompress : Bytes → Bytes

/-- The compression libraries visible to `_resolve_compression`.  `zlib` is
part of the standard library and always importable; `lz4` and `snappy` are
optional dependencies whose import may fail (`none`). -/
structure CompressionLibs where
  zlib : CompressionLib
  lz4 : Option CompressionLib
  snappy : Option CompressionLib

/-- Shallow embedding of `_resolve_compression`: returns the optional
compress function, the optional decompress function, and the canonical
name, or raises `RuntimeError` / `ValueError`. -/
def resolve_compression (libs : CompressionLibs) (name : Option String) :
    Except PyErr (Option (Bytes → Bytes) × Option (Bytes → Bytes) × String) :=
  match name with
  | none => .ok (none, none, "none")
  | some s =>
    if s = "" then .ok (none, none, "none")
    else
      let normalized := strLower (strTrim s)
      if normalized = "zlib" then
        .ok (some libs.zlib.compress, some libs.zlib.decompress, "zlib")
      else if normalized = "lz4" then
        match libs.lz4 with
        | none => .error (.runtimeError "Compression library 'lz4' is not installed.")
        | some l => .ok (some l.compress, some l.decompress, "lz4")
      else if normalized = "snappy" then
        match libs.snappy with
        | none => .error (.runtimeError "Compression library 'snappy' is not installed.")
        | some l => .ok (some l.compress, some l.decompress, "snappy")
      else .error (.valueError ("Unknown compression library: " ++ s))

/-- Apply an optional compress function, as in
`payload = self._compress_fn(payload) if self._compress_fn else payload`. -/
def applyCompress (fn : Option (Bytes → Bytes)) (payload : Bytes) : Bytes :=
  match fn with
  | none => payload
  | some f => f payload

/-- Apply an optional decompress function, as in
`payload = self._decompress_fn(data) if self._decompress_fn else data`. -/
def applyDecompress (fn : Option (Bytes → Bytes)) (data : Bytes) : Bytes :=
  match fn with
  | none => data
  | some f => f data

/-! ### The in-memory backend data model -/

/-- A `torch.Tensor` as the backend touches it: the only observation the
backend makes is the byte string `torch.save` serializes it to. -/
structure PtTensor where
  saveBytes : Bytes

/-- The runtime type of the `data` argument of `write`: `BytesIO`, `bytes`,
`torch.Tensor`, or any other Python object (rejected with `TypeError`). -/
inductive WriteData
  | bytesBuffer (bs : Bytes)
  | bytes (bs : Bytes)
  | tensor (t : PtTensor)
  | other

/-- Return values that are either raw `bytes` or a `BytesIO` wrapper; both
carry the same byte content. -/
inductive PyBytes
  | bytes (bs : Bytes)
  | bytesBuffer (bs : Bytes)
  deriving DecidableEq, Repr

/-- The byte content of a `bytes`/`BytesIO` value. -/
def PyBytes.data : PyBytes → Bytes
  | .bytes bs => bs
  | .bytesBuffer bs => bs

/-- The state of a `GH200InMemoryBackend` object after `__init__`.  The
`accelerator` handle is opaque to every operation and omitted.  The RLock
only serializes dict mutation; the sequential embedding needs no lock. -/
structure Backend where
  id : String
  instance_data_dir : String
  file_extensions : List String
  compressFn : Option (Bytes → Bytes)
  decompressFn : Option (Bytes → Bytes)
  compressionName : String
  memoryLimitBytes : Option Nat
  numWorkers : Nat
  storage : List (String × Bytes)

namespace Backend

/-- Embedding of `GH200InMemoryBackend.read`: look the identifier up in
`_storage` (a missing key raises `KeyError`), decompress when a
decompress function is configured, and wrap in `BytesIO` when requested. -/
def read (b : Backend) (identifier : String) (as_byte_io : Bool := false) :
    Except PyErr PyBytes × Backend :=
  (match dictGet identifier b.storage with
   | none => .error (.keyError identifier)
   | some data =>
     let payload := applyDecompress b.decompressFn data
     .ok (if as_byte_io then .bytesBuffer payload else .bytes payload), b)

/-- The payload extraction at the top of `GH200InMemoryBackend.write`:
`BytesIO.getvalue()`, raw `bytes`, or `torch.save` of a tensor; any other
type is `none` (the `TypeError` branch). -/
def writePayload : WriteData → Option Bytes
  | .bytesBuffer bs => some bs
  | .bytes bs => some bs
  | .tensor t => some t.saveBytes
  | .other => none

/-- Embedding of `GH200InMemoryBackend.write`: type-check the data, then
compress when configured, then store under the identifier. -/
def write (b : Backend) (identifier : String) (data : WriteData) :
    Except PyErr Unit × Backend :=
  match writePayload data with
  | none => (.error .typeError, b)
  | some payload =>
    let payload := applyCompress b.compressFn payload
    (.ok (), { b with storage := dictInsert identifier payload b.storage })

/-- Embedding of `GH200InMemoryBackend.delete`: `self._storage.pop(identifier, None)`. -/
def delete (b : Backend) (identifier : String) : Backend :=
  { b with storage := dictErase identifier b.storage }

/-- Embedding of `GH200InMemoryBackend.exists`: `identifier in self._storage`. -/
def existsKey (b : Backend) (identifier : String) : Bool × Backend :=
  ((dictGet identifier b.storage).isSome, b)

/-- Embedding of `GH200InMemoryBackend.open_file`: serves a `BytesIO` over
the decompressed payload for a read mode and staged identifier, raises
`NotImplementedError` otherwise. -/
def open_file (b : Backend) (identifier : String) (mode : String) :
    Except PyErr PyBytes × Backend :=
  (if mode.toList.contains 'r' then
     match dictGet identifier b.storage with
     | some payload => .ok (.bytesBuffer (applyDecompress b.decompressFn payload))
     | none => .error .notImplementedError
   else .error .notImplementedError, b)

/-- The `setdefault(parent, []).append(item)` step of `list_files`,
preserving dict insertion order. -/
def resultsAppend (k v : String) : List (String × List String) → List (String × List String)
  | [] => [(k, [v])]
  | kv :: rest => if kv.1 = k then (k, kv.2 ++ [v]) :: rest else kv :: resultsAppend k v rest

/-- Embedding of `GH200InMemoryBackend.list_files`: group the staged keys
whose suffix passes the extension filter by parent directory, listing the
absolute path of each. -/
def list_files (b : Backend) (file_extensions : List String) :
    List (String × List String × List String) × Backend :=
  let extensions :=
    (if file_extensions.isEmpty then b.file_extensions else file_extensions).map normalizeExt
  let results := b.storage.foldl
    (fun acc kv =>
      if ¬ extensions.isEmpty ∧ ¬ extensions.contains (normalizeExt (pathSuffix kv.1)) then acc
      else resultsAppend (pathParent kv.1) (strJoin b.instance_data_dir kv.1) acc)
    []
  (results.map (fun fr => (fr.1, ([] : List String), fr.2)), b)

/-- Embedding of `GH200InMemoryBackend.get_abs_path`. -/
def get_abs_path (b : Backend) (sample_path : Option String) : String × Backend :=
  (match sample_path with
   | none => b.instance_data_dir
   | some p => if isAbsPath p then p else strJoin b.instance_data_dir p, b)

/-- Embedding of `GH200InMemoryBackend.read_image` up to the PIL decode:
the relative key is read from storage, a `KeyError` is converted to
`FileNotFoundError(filepath)`, and the decompressed bytes are what
`Image.open` is handed (PIL itself is external to this repository). -/
def read_image (b : Backend) (filepath : String) : Except PyErr Bytes × Backend :=
  (match (b.read (relativeKey b.instance_data_dir filepath) false).1 with
   | .error (.keyError _) => .error (.fileNotFoundError filepath)
   | .error e => .error e
   | .ok pb => .ok pb.data, b)

/-- Embedding of `GH200InMemoryBackend.torch_load` up to the deserialize:
the relative key is read from storage (a `KeyError` propagates) and the
decompressed bytes are what `torch.load` is handed. -/
def torch_load (b : Backend) (filename : String) : Except PyErr Bytes × Backend :=
  (match (b.read (relativeKey b.instance_data_dir filename) false).1 with
   | .error e => .error e
   | .ok pb => .ok pb.data, b)

end Backend

/-! ### Construction: `__init__`, `_gather_files`, `_load_dataset` -/

/-- A file on disk: its resolved absolute path and raw contents
(`path.stat().st_size` is the length of the contents). -/
structure FSFile where
  path : String
  contents : Bytes

/-- A snapshot of the filesystem: regular files plus the set of existing
directories (used by the `instance_data_dir.exists()` check). -/
structure FileSystem where
  files : List FSFile
  dirs : List String

/-- The keyword arguments of `GH200InMemoryBackend.__init__`.
`memoryLimitBytes` is `None if memory_limit_gb is None else
int(memory_limit_gb * 1024 ** 3)` (so `memory_limit_gb = 0.0` yields
`some 0`). -/
structure Config where
  id : String
  instance_data_dir : String
  file_extensions : Option (List String)
  compression : Option String
  memoryLimitBytes : Option Nat
  num_workers : Nat

/-- The extension match of `_gather_files`: `rglob(f"*{extension}")` plus
`rglob(f"*{extension.upper()}")` for each `"." + ext`, i.e. the path ends
with the all-lowercase or the all-uppercase form of the dotted extension. -/
def extMatch (exts : List String) (path : String) : Bool :=
  exts.any (fun e =>
    ("." ++ e).toList.isSuffixOf path.toList ||
    (strUpper ("." ++ e)).toList.isSuffixOf path.toList)

/-- Embedding of `_gather_files`: every file under `instance_data_dir`
whose path matches one of the extension patterns.  The source unions the
per-pattern rglob results into a set and sorts it; with distinct file
paths that equals this single filter, and the sort only fixes the order
in which loads are *submitted* to the thread pool (`as_completed` makes
the completion order arbitrary), so the order is irrelevant to the final
dict. -/
def gatherFiles (fs : FileSystem) (dir : String) (exts : List String) : List FSFile :=
  fs.files.filter (fun f => isUnder dir f.path && extMatch exts f.path)

/-- Total raw size of a list of files, `sum(path.stat().st_size for path in files)`. -/
def totalRawSize (files : List FSFile) : Nat :=
  (files.map (fun f => f.contents.length)).sum

/-- Embedding of `_load_single_file`: read the contents, compress when
configured, and key by the path relative to the instance data dir. -/
def loadSingleFile (compressFn : Option (Bytes → Bytes)) (dir : String) (f : FSFile) :
    String × Bytes :=
  (stripDir dir f.path, applyCompress compressFn f.contents)

/-- The Python truthiness guard
`if self._memory_limit_bytes and total_bytes > self._memory_limit_bytes`:
`None` and `0` are both falsy, so the limit check is skipped for them. -/
def limitExceeded (limit : Option Nat) (total : Nat) : Bool :=
  match limit with
  | none => false
  | some l => decide (l ≠ 0) && decide (total > l)

/-- The staging loop of `_load_dataset`: each loaded file is inserted into
the storage dict under its relative key. -/
def loadStorage (compressFn : Option (Bytes → Bytes)) (dir : String) (files : List FSFile) :
    List (String × Bytes) :=
  files.foldl
    (fun st f =>
      let kv := loadSingleFile compressFn dir f
      dictInsert kv.1 kv.2 st)
    []

/-- Embedding of `GH200InMemoryBackend.__init__` (including
`_load_dataset`).  `defaultExts` stands for the framework's
`image_file_extensions` constant, which lives outside this repository. -/
def initBackend (libs : CompressionLibs) (defaultExts : List String)
    (fs : FileSystem) (cfg : Config) : Except PyErr Backend :=
  match resolve_compression libs cfg.compression with
  | .error e => .error e
  | .ok (compressFn, decompressFn, compressionName) =>
    let exts := (cfg.file_extensions.getD defaultExts).map normalizeExt
    if fs.dirs.contains cfg.instance_data_dir = false then
      .error (.fileNotFoundError cfg.instance_data_dir)
    else
      let base : Backend :=
        { id := cfg.id
          instance_data_dir := cfg.instance_data_dir
          file_extensions := exts
          compressFn := compressFn
          decompressFn := decompressFn
          compressionName := compressionName
          memoryLimitBytes := cfg.memoryLimitBytes
          numWorkers := max 1 cfg.num_workers
          storage := [] }
      let files := gatherFiles fs cfg.instance_data_dir exts
      if files.isEmpty then .ok base
      else if limitExceeded cfg.memoryLimitBytes (totalRawSize files) then
        .error .memoryError
      else
        .ok { base with storage := loadStorage compressFn cfg.instance_data_dir files }

/-- Total number of bytes held in the staged storage. -/
def storedBytes (st : List (String × Bytes)) : Nat :=
  (st.map (fun kv => kv.2.length)).sum

end GH200

namespace UVM

/-- Embedding of `gh200_uvm_enabled`: the module-level override wins when
set; otherwise the `SIMPLETUNER_GH200_ENABLE_UVM_HINTS` environment
variable (default `""`) decides via the truthy-string test. -/
def gh200_uvm_enabled (override : Option Bool) (envFlag : Option String) : Bool :=
  match override with
  | some b => b
  | none => GH200.truthyFlag (envFlag.getD "")

/-- Embedding of `set_uvm_hint_override`: replaces the module-level
`_UVM_HINT_OVERRIDE` (passing `none` restores environment behaviour). -/
def set_uvm_hint_override (value : Option Bool) : Option Bool := value

/-- The device argument handed to `torch.cuda.memory_advise`: the string
`"cpu"` or a CUDA device index. -/
inductive Loc
  | cpu
  | gpu (i : Nat)
  deriving DecidableEq, Repr

/-- One CUDA runtime/driver call the hint layer can perform. -/
inductive CudaCall
  | torchAdvise (advice : String) (dev : Loc)
  | memAdvise (ptr size advice : Nat) (dev : Int)
  | prefetchAsync (ptr size : Nat) (dev : Int)
  deriving DecidableEq, Repr

/-- A performed CUDA call together with whether it raised an exception. -/
structure Event where
  call : CudaCall
  raised : Bool
  deriving DecidableEq, Repr

/-- Whether an event is a driver-level cudart call (`cudaMemAdvise` or
`cudaMemPrefetchAsync`) rather than the `torch.cuda.memory_advise`
wrapper. -/
def Event.isDriverCall (e : Event) : Bool :=
  match e.call with
  | .memAdvise .. => true
  | .prefetchAsync .. => true
  | .torchAdvise .. => false

/-- The object returned by `torch.cuda.cudart()`: which attributes exist
and how each call behaves (`true` means the call raises). -/
structure CudartW where
  hasMemAdvise : Bool
  hasPrefLoc : Bool
  hasAccessedBy : Bool
  prefLocCode : Nat
  accessedByCode : Nat
  cpuDeviceId : Option Int
  memAdviseRaises : Nat → Nat → Nat → Int → Bool
  hasPrefetchAsync : Bool
  prefetchRaises : Nat → Nat → Int → Bool

/-- The ambient CUDA/torch state the hint functions consult. -/
structure CudaWorld where
  override : Option Bool
  envFlag : Option String
  available : Bool
  currentDeviceResult : Except Unit Nat
  hasMemoryAdvise : Bool
  torchAdviseRaises : String → Loc → Bool
  cudart : Option CudartW

/-- Whether GH200 behaviour is enabled in this world. -/
def CudaWorld.enabled (w : CudaWorld) : Bool :=
  gh200_uvm_enabled w.override w.envFlag

/-- Embedding of `_current_cuda_device`: `torch.cuda.current_device()`
with a fallback of `0` when it raises. -/
def currentCudaDevice (w : CudaWorld) : Nat :=
  match w.currentDeviceResult with
  | .ok n => n
  | .error _ => 0

/-- A `torch.Tensor` as `uvm.py` observes it; `Except`-valued fields model
attribute accesses that may raise. -/
structure UTensor where
  isCuda : Bool
  storageNBytes : Except Unit Nat
  elemTimesNumel : Except Unit Nat
  dataPtr : Except Unit Nat
  storageDataPtr : Except Unit Nat

/-- Embedding of `_element_span_bytes`: the untyped storage size when the
access succeeds and is nonzero, otherwise `element_size() * numel()`,
otherwise `0`. -/
def elementSpanBytes (t : UTensor) : Nat :=
  let fallback :=
    match t.elemTimesNumel with
    | .ok m => m
    | .error _ => 0
  match t.storageNBytes with
  | .ok n => if n ≠ 0 then n else fallback
  | .error _ => fallback

/-- The pointer resolution of `_apply_preferred_location` /
`prefetch_to_device`: `tensor.data_ptr()`, falling back to
`tensor.storage().data_ptr()`, giving up on a second exception. -/
def resolvePtr (t : UTensor) : Option Nat :=
  match t.dataPtr with
  | .ok p => some p
  | .error _ =>
    match t.storageDataPtr with
    | .ok p => some p
    | .error _ => none

/-- The driver-level fallback of `_apply_preferred_location`: the
`cudart.cudaMemAdvise` block.  `tr` is the trace accumulated by the
`torch.cuda.memory_advise` attempt.  A missing attribute raises inside
the `try` before any call is made. -/
def cudartFallback (w : CudaWorld) (t : UTensor) (preferCpu : Bool)
    (tr : List Event) : Bool × List Event :=
  match w.cudart with
  | none => (false, tr)
  | some c =>
    let size := elementSpanBytes t
    if size ≤ 0 then (false, tr)
    else
      match resolvePtr t with
      | none => (false, tr)
      | some ptr =>
        if ¬ (c.hasMemAdvise ∧ c.hasPrefLoc ∧ c.hasAccessedBy) then (false, tr)
        else
          let cpuId := c.cpuDeviceId.getD (-1)
          let target : Int := if preferCpu then cpuId else (currentCudaDevice w : Int)
          let e1 : Event :=
            { call := .memAdvise ptr size c.prefLocCode target
              raised := c.memAdviseRaises ptr size c.prefLocCode target }
          if e1.raised then (false, tr ++ [e1])
          else
            let dev2 : Int := (currentCudaDevice w : Int)
            let e2 : Event :=
              { call := .memAdvise ptr size c.accessedByCode dev2
                raised := c.memAdviseRaises ptr size c.accessedByCode dev2 }
            if e2.raised then (false, tr ++ [e1, e2])
            else (true, tr ++ [e1, e2])

/-- Embedding of `_apply_preferred_location`: guards, then the
`torch.cuda.memory_advise` attempt (falling through to the driver path
when the attribute is missing or a call raises), then `cudartFallback`. -/
def applyPreferredLocation (w : CudaWorld) (t : UTensor) (preferCpu : Bool) :
    Bool × List Event :=
  if w.enabled = false then (false, [])
  else if w.available = false ∨ t.isCuda = false then (false, [])
  else
    if w.hasMemoryAdvise then
      let location := if preferCpu then Loc.cpu else Loc.gpu (currentCudaDevice w)
      let e1 : Event :=
        { call := .torchAdvise "set_preferred_location" location
          raised := w.torchAdviseRaises "set_preferred_location" location }
      if e1.raised then cudartFallback w t preferCpu [e1]
      else
        let loc2 := Loc.gpu (currentCudaDevice w)
        let e2 : Event :=
          { call := .torchAdvise "set_accessed_by" loc2
            raised := w.torchAdviseRaises "set_accessed_by" loc2 }
        if e2.raised then cudartFallback w t preferCpu [e1, e2]
        else (true, [e1, e2])
    else cudartFallback w t preferCpu []

/-- Embedding of `prefer_cpu_residency`. -/
def prefer_cpu_residency (w : CudaWorld) (t : UTensor) : Bool × List Event :=
  applyPreferredLocation w t true

/-- Embedding of `prefer_gpu_residency`. -/
def prefer_gpu_residency (w : CudaWorld) (t : UTensor) : Bool × List Event :=
  applyPreferredLocation w t false

/-- Embedding of `prefetch_to_device`. -/
def prefetch_to_device (w : CudaWorld) (t : UTensor) (device : Option Int := none) :
    Bool × List Event :=
  if w.enabled = false then (false, [])
  else if w.available = false ∨ t.isCuda = false then (false, [])
  else
    let dev : Int :=
      match device with
      | none => (currentCudaDevice w : Int)
      | some d => d
    match w.cudart with
    | none => (false, [])
    | some c =>
      let size := elementSpanBytes t
      if size ≤ 0 then (false, [])
      else
        match resolvePtr t with
        | none => (false, [])
        | some ptr =>
          if c.hasPrefetchAsync = false then (false, [])
          else
            let e : Event :=
              { call := .prefetchAsync ptr size dev
                raised := c.prefetchRaises ptr size dev }
            if e.raised then (false, [e]) else (true, [e])

/-- The values `_iter_tensors` walks: tensors, mappings, lists/tuples, and
anything else (which yields nothing). -/
inductive PyVal
  | tensor (t : UTensor)
  | mapping (entries : List (String × PyVal))
  | listv (items : List PyVal)
  | other

/-- Embedding of `_iter_tensors` (as the list of tensors yielded). -/
def iterTensors : PyVal → List UTensor
  | .tensor t => [t]
  | .mapping es => iterTensorsEntries es
  | .listv xs => iterTensorsList xs
  | .other => []
where
  iterTensorsEntries : List (String × PyVal) → List UTensor
    | [] => []
    | e :: rest => iterTensors e.2 ++ iterTensorsEntries rest
  iterTensorsList : List PyVal → List UTensor
    | [] => []
    | v :: rest => iterTensors v ++ iterTensorsList rest

/-- `batch.get(key)` on the batch mapping. -/
def batchGet (batch : List (String × PyVal)) (k : String) : Option PyVal :=
  (batch.find? (fun kv => kv.1 = k)).map (·.2)

/-- `_iter_tensors` applied to an optional value (`batch.get` may give
`None`, which yields nothing). -/
def iterTensorsOpt : Option PyVal → List UTensor
  | none => []
  | some v => iterTensors v

/-- Embedding of `optimize_batch_for_gh200`, observed through the CUDA
calls it performs (the Python function returns `None`). -/
def optimize_batch_for_gh200 (w : CudaWorld) (batch : List (String × PyVal)) :
    List Event :=
  if w.enabled = false then []
  else
    let latentsTrace :=
      (iterTensorsOpt (batchGet batch "latents")).flatMap
        (fun t => (prefer_cpu_residency w t).2)
    let keysTrace :=
      (["encoder_hidden_states", "text_embeddings", "pooled_prompt_embeds"].flatMap
        (fun key =>
          (iterTensorsOpt (batchGet batch key)).flatMap
            (fun t => (prefer_gpu_residency w t).2 ++ (prefetch_to_device w t none).2)))
    latentsTrace ++ keysTrace

end UVM

namespace Diag

/-- Model of Python `part.split(":", 1)` guarded by `":" in part`:
`none` when the part has no colon, otherwise the text before the first
colon and everything after it. -/
def splitFirstColon : List Char → Option (List Char × List Char)
  | [] => none
  | c :: rest =>
    if c = ':' then some ([], rest)
    else (splitFirstColon rest).map (fun p => (c :: p.1, p.2))

/-- String wrapper for `splitFirstColon`. -/
def splitOnceColon (s : String) : Option (String × String) :=
  (splitFirstColon s.toList).map (fun p => (String.mk p.1, String.mk p.2))

/-- The result dict of `check_uvm_env`.  `F` is the type Python `float`
parsing produces; `ratio` keeps the raw stripped string (`Sum.inr`) when
`float(value)` raises `ValueError`. -/
structure UvmEnvReport (F : Type) where
  enabled : Bool
  raw : String
  ratio : Option (F ⊕ String)
  accessPattern : Option String

/-- The stripped value of a `key:value` part when its stripped,
lowercased key equals `key`; `none` when the part has no colon or a
different key. -/
def partKeyValue (key : String) (part : String) : Option String :=
  match splitOnceColon part with
  | none => none
  | some (k, v) =>
    if GH200.strLower (GH200.strTrim k) = key then some (GH200.strTrim v) else none

/-- One iteration of the parsing loop of `check_uvm_env`, updating the
`(ratio, access_pattern)` pair. -/
def uvmEnvStep {F : Type} (parseFloat : String → Option F)
    (acc : Option (F ⊕ String) × Option String) (part : String) :
    Option (F ⊕ String) × Option String :=
  match splitOnceColon part with
  | none => acc
  | some (key, value) =>
    let key := GH200.strLower (GH200.strTrim key)
    let value := GH200.strTrim value
    if key = "uvm_oversubscription_ratio" then
      (match parseFloat value with
       | some f => some (.inl f)
       | none => some (.inr value), acc.2)
    else if key = "uvm_access_pattern" then
      (acc.1, some (GH200.strLower value))
    else acc

/-- Embedding of `check_uvm_env`, parameterized by the Python `float`
parser (`parseFloat v = none` models `float(v)` raising `ValueError`).
`conf` is the value of `PYTORCH_CUDA_ALLOC_CONF` (default `""`). -/
def check_uvm_env {F : Type} (parseFloat : String → Option F) (conf : String) :
    UvmEnvReport F :=
  let enabled := GH200.strContains conf "use_uvm:True"
  let st :=
    if conf = "" then ((none : Option (F ⊕ String)), (none : Option String))
    else ((GH200.splitOnChar ',' conf.toList).map String.mk).foldl
      (uvmEnvStep parseFloat) (none, none)
  { enabled := enabled
    raw := conf
    ratio := st.1
    accessPattern := st.2 }

/-- Declarative reading of the spec: the stripped values of the
comma-separated `key:value` parts of the config whose stripped,
lowercased key is `key`. -/
def keyedValues (key conf : String) : List String :=
  ((GH200.splitOnChar ',' conf.toList).map String.mk).filterMap (partKeyValue key)

end Diag

open GH200 UVM Diag

/-! ## Concrete instances used by witnesses and counterexamples -/

/-- Concrete backend used by several claim witnesses. -/
def sampleBackend : Backend where
  id := "bk"
  instance_data_dir := "/d"
  file_extensions := ["png"]
  compressFn := none
  decompressFn := none
  compressionName := "none"
  memoryLimitBytes := none
  numWorkers := 1
  storage := [("a.png", [1, 2, 3])]

/-- Identity compress/decompress pair, a legitimate instantiation of the
library interfaces for the witnesses. -/
def identityLib : CompressionLib := ⟨fun x => x, fun x => x⟩

/-- Library environment with all three optional libraries installed. -/
def identityLibs : CompressionLibs := ⟨identityLib, some identityLib, some identityLib⟩

/-- Concrete CUDA tensor for the UVM witnesses and counterexample. -/
def sampleTensor : UTensor where
  isCuda := true
  storageNBytes := .ok 16
  elemTimesNumel := .ok 16
  dataPtr := .ok 100
  storageDataPtr := .ok 100

/-- A cudart handle on which every call succeeds. -/
def sampleCudart : CudartW where
  hasMemAdvise := true
  hasPrefLoc := true
  hasAccessedBy := true
  prefLocCode := 3
  accessedByCode := 5
  cpuDeviceId := some (-1)
  memAdviseRaises := fun _ _ _ _ => false
  hasPrefetchAsync := true
  prefetchRaises := fun _ _ _ => false

/-- A world with the GH200 hints disabled by an explicit override. -/
def disabledWorld : CudaWorld where
  override := some false
  envFlag := some "1"
  available := true
  currentDeviceResult := .ok 0
  hasMemoryAdvise := true
  torchAdviseRaises := fun _ _ => false
  cudart := some sampleCudart

/-- A world where `torch.cuda.memory_advise` raises on every call but the
driver-level cudart fallback succeeds. -/
def torchRaisesWorld : CudaWorld where
  override := some true
  envFlag := none
  available := true
  currentDeviceResult := .ok 0
  hasMemoryAdvise := true
  torchAdviseRaises := fun _ _ => true
  cudart := some sampleCudart

/-- A one-file filesystem snapshot for construction witnesses. -/
def sampleFS : FileSystem where
  files := [⟨"/d/a.png", [1, 2, 3, 4, 5]⟩]
  dirs := ["/d"]

/-- Configuration without compression or memory limit. -/
def sampleCfg : Config where
  id := "bk"
  instance_data_dir := "/d"
  file_extensions := some ["png"]
  compression := none
  memoryLimitBytes := none
  num_workers := 16

/-- The backend that constructing over `sampleFS` with `sampleCfg`
produces. -/
def sampleLoadedBackend : Backend where
  id := "bk"
  instance_data_dir := "/d"
  file_extensions := ["png"]
  compressFn := none
  decompressFn := none
  compressionName := "none"
  memoryLimitBytes := none
  numWorkers := 16
  storage := [("a.png", [1, 2, 3, 4, 5])]

/-- `sampleCfg` with `memory_limit_gb = 0.0`, i.e. a configured byte
limit of `int(0.0 * 1024 ** 3) = 0`. -/
def zeroLimitCfg : Config :=
  { sampleCfg with memoryLimitBytes := some 0 }

/-- The backend that construction (incorrectly, per claim C4) produces
under the zero limit. -/
def zeroLimitBackend : Backend :=
  { sampleLoadedBackend with memoryLimitBytes := some 0 }

/-- `sampleCfg` with a 3-byte limit, below the 5 raw bytes on disk. -/
def smallLimitCfg : Config :=
  { sampleCfg with memoryLimitBytes := some 3 }

/-- A world without `torch.cuda.memory_advise` whose driver-level
`cudaMemAdvise` raises on every call. -/
def driverRaisesWorld : CudaWorld where
  override := some true
  envFlag := none
  available := true
  currentDeviceResult := .ok 0
  hasMemoryAdvise := false
  torchAdviseRaises := fun _ _ => false
  cudart := some { sampleCudart with memAdviseRaises := fun _ _ _ _ => true }

/-- A world whose `cudaMemPrefetchAsync` raises on every call. -/
def prefetchRaisesWorld : CudaWorld where
  override := some true
  envFlag := none
  available := true
  currentDeviceResult := .ok 0
  hasMemoryAdvise := false
  torchAdviseRaises := fun _ _ => false
  cudart := some { sampleCudart with prefetchRaises := fun _ _ _ => true }

/-! ## Helper lemmas -/

namespace GH200

theorem dictGet_dictInsert (k k' : String) (v : Bytes) (st : List (String × Bytes)) :
    dictGet k (dictInsert k' v st) = if k = k' then some v else dictGet k st := by
  induction st with
  | nil =>
    by_cases h : k = k'
    · subst h; simp [dictGet, dictInsert, List.find?]
    · have h' : ¬ k' = k := fun he => h he.symm
      simp [dictGet, dictInsert, List.find?, h, h']
  | cons kv rest ih =>
    by_cases hk : kv.1 = k'
    · by_cases h : k = k'
      · subst h; simp [dictGet, dictInsert, List.find?, hk]
      · have h' : ¬ k' = k := fun he => h he.symm
        simp [dictGet, dictInsert, List.find?, hk, h, h']
    · by_cases hkk : kv.1 = k
      · have h' : ¬ k = k' := fun he => hk (hkk.trans he)
        simp [dictGet, dictInsert, List.find?, hk, hkk, h']
      · simpa [dictGet, dictInsert, List.find?, hk, hkk] using ih

theorem dictGet_dictErase_ne (k k' : String) (st : List (String × Bytes)) (h : k ≠ k') :
    dictGet k (dictErase k' st) = dictGet k st := by
  induction st with
  | nil => simp [dictGet, dictErase]
  | cons kv rest ih =>
    by_cases hk : kv.1 = k'
    · have hkk : ¬ kv.1 = k := fun he => h (he.symm.trans hk)
      have h' : ¬ k' = k := fun he => h he.symm
      simp [dictGet, dictErase, hk, List.find?, hkk, h']
    · by_cases hkk : kv.1 = k
      · have h2 : ¬ k = k' := fun he => hk (hkk.trans he)
        simp [dictGet, dictErase, hk, List.find?, hkk, h2]
      · simpa [dictGet, dictErase, hk, List.find?, hkk] using ih

theorem dictGet_eq_none (k : String) (st : List (String × Bytes)) :
    dictGet k st = none ↔ ∀ kv ∈ st, kv.1 ≠ k := by
  simp [dictGet, List.find?_eq_none]

theorem dictErase_absent (k : String) (st : List (String × Bytes))
    (h : dictGet k st = none) : dictErase k st = st := by
  rw [dictGet_eq_none] at h
  induction st with
  | nil => simp [dictErase]
  | cons kv rest ih =>
    have hk : ¬ kv.1 = k := h kv (by simp)
    simp [dictErase, hk, ih (fun kv2 hm => h kv2 (List.mem_cons_of_mem _ hm))]

theorem dictInsert_absent (k : String) (v : Bytes) (st : List (String × Bytes))
    (h : dictGet k st = none) : dictInsert k v st = st ++ [(k, v)] := by
  rw [dictGet_eq_none] at h
  induction st with
  | nil => simp [dictInsert]
  | cons kv rest ih =>
    have hk : ¬ kv.1 = k := h kv (by simp)
    simp [dictInsert, hk, ih (fun kv2 hm => h kv2 (List.mem_cons_of_mem _ hm))]

/-- For an association list whose keys are distinct, lookup of a present
key returns the associated value. -/
theorem dictGet_of_nodup_mem (k : String) (v : Bytes) (st : List (String × Bytes))
    (hnd : (st.map (·.1)).Nodup) (hmem : (k, v) ∈ st) : dictGet k st = some v := by
  induction st with
  | nil => simp at hmem
  | cons kv rest ih =>
    simp only [List.map_cons, List.nodup_cons] at hnd
    rcases List.mem_cons.mp hmem with h | h
    · subst h; simp [dictGet, List.find?]
    · have hne : kv.1 ≠ k := by
        intro he
        exact hnd.1 (he ▸ (List.mem_map.mpr ⟨(k, v), h, rfl⟩))
      simpa [dictGet, List.find?, hne] using ih hnd.2 h

/-- Lookup distributes over append: the first list wins. -/
theorem dictGet_append (k : String) (l1 l2 : List (String × Bytes)) :
    dictGet k (l1 ++ l2) = (dictGet k l1).or (dictGet k l2) := by
  induction l1 with
  | nil => simp [dictGet]
  | cons kv rest ih =>
    by_cases hk : kv.1 = k
    · simp [dictGet, List.find?, hk]
    · simpa [dictGet, List.find?, hk] using ih

/-- Folding `dictInsert` over entries with fresh, pairwise-distinct keys
appends them in order. -/
theorem foldl_dictInsert_eq (l : List (String × Bytes)) (st : List (String × Bytes))
    (hnd : (l.map (·.1)).Nodup)
    (hdis : ∀ kv ∈ l, dictGet kv.1 st = none) :
    l.foldl (fun s kv => dictInsert kv.1 kv.2 s) st = st ++ l := by
  induction l generalizing st with
  | nil => simp
  | cons kv rest ih =>
    rw [List.foldl_cons, dictInsert_absent kv.1 kv.2 st (hdis kv (List.mem_cons_self kv rest))]
    simp only [List.map_cons, List.nodup_cons] at hnd
    have hdis2 : ∀ kv2 ∈ rest, dictGet kv2.1 (st ++ [kv]) = none := by
      intro kv2 hm
      rw [dictGet_append, hdis kv2 (List.mem_cons_of_mem _ hm)]
      have hne : ¬ kv.1 = kv2.1 := fun he =>
        hnd.1 (he ▸ List.mem_map.mpr ⟨kv2, hm, rfl⟩)
      simp [dictGet, List.find?, hne]
    rw [ih (st ++ [kv]) hnd.2 hdis2, List.append_assoc, List.singleton_append]

/-- With pairwise-distinct relative keys, the staging loop produces
exactly the per-file `(relative key, compressed payload)` entries in
order. -/
theorem loadStorage_eq (c : Option (Bytes → Bytes)) (dir : String) (files : List FSFile)
    (hnd : (files.map (fun g => stripDir dir g.path)).Nodup) :
    loadStorage c dir files = files.map (loadSingleFile c dir) := by
  unfold loadStorage
  have hfold :
      files.foldl (fun st f => dictInsert (loadSingleFile c dir f).1 (loadSingleFile c dir f).2 st) []
        = (files.map (loadSingleFile c dir)).foldl (fun st kv => dictInsert kv.1 kv.2 st) [] := by
    rw [List.foldl_map]
  rw [show (fun (st : List (String × Bytes)) (f : FSFile) =>
        let kv := loadSingleFile c dir f
        dictInsert kv.1 kv.2 st)
      = fun st f => dictInsert (loadSingleFile c dir f).1 (loadSingleFile c dir f).2 st from rfl]
  rw [hfold, foldl_dictInsert_eq _ _ ?keys ?dis]
  · simp
  case keys =>
    rw [List.map_map]
    exact hnd
  case dis =>
    intro kv _
    rfl

/-- `stripDir` is injective on the paths lying under `dir`. -/
theorem stripDir_injOn (dir p1 p2 : String)
    (h1 : isUnder dir p1 = true) (h2 : isUnder dir p2 = true)
    (he : stripDir dir p1 = stripDir dir p2) : p1 = p2 := by
  unfold isUnder at h1 h2
  rw [List.isPrefixOf_iff_prefix] at h1 h2
  have hd : p1.toList.drop (dir.toList.length + 1) = p2.toList.drop (dir.toList.length + 1) := by
    have := congrArg String.toList he
    simpa [stripDir] using this
  have hlen : (dir.toList ++ ['/']).length = dir.toList.length + 1 := by simp
  obtain ⟨t1, ht1⟩ := h1
  obtain ⟨t2, ht2⟩ := h2
  have hd1 : p1.toList.drop (dir.toList.length + 1) = t1 := by
    rw [← ht1, ← hlen, List.drop_left]
  have hd2 : p2.toList.drop (dir.toList.length + 1) = t2 := by
    rw [← ht2, ← hlen, List.drop_left]
  have hts : t1 = t2 := by rw [← hd1, ← hd2, hd]
  have hls : p1.toList = p2.toList := by rw [← ht1, ← ht2, hts]
  cases p1
  cases p2
  exact congrArg String.mk (by simpa [String.toList] using hls)

/-- Inserting never grows the stored byte count by more than the inserted
payload. -/
theorem storedBytes_dictInsert_le (k : String) (v : Bytes) (st : List (String × Bytes)) :
    storedBytes (dictInsert k v st) ≤ storedBytes st + v.length := by
  induction st with
  | nil => simp [dictInsert, storedBytes]
  | cons kv rest ih =>
    by_cases hk : kv.1 = k
    · simp only [dictInsert, hk, if_pos, ite_true, storedBytes, List.map_cons, List.sum_cons]
      omega
    · simp only [dictInsert, hk, ite_false, storedBytes, List.map_cons, List.sum_cons] at ih ⊢
      omega

/-- The staged bytes after the loading fold are bounded by the initial
bytes plus the total inserted payload. -/
theorem storedBytes_foldl_le (l : List (String × Bytes)) (st : List (String × Bytes)) :
    storedBytes (l.foldl (fun s kv => dictInsert kv.1 kv.2 s) st)
      ≤ storedBytes st + (l.map (fun kv => kv.2.length)).sum := by
  induction l generalizing st with
  | nil => simp
  | cons kv rest ih =>
    rw [List.foldl_cons]
    have h1 := ih (dictInsert kv.1 kv.2 st)
    have h2 := storedBytes_dictInsert_le kv.1 kv.2 st
    simp only [List.map_cons, List.sum_cons]
    omega

/-- Without compression, the bytes staged by `_load_dataset` never exceed
the raw total size of the loaded files. -/
theorem storedBytes_loadStorage_none_le (dir : String) (files : List FSFile) :
    storedBytes (loadStorage none dir files) ≤ totalRawSize files := by
  unfold loadStorage
  have hfold :
      files.foldl (fun st f => dictInsert (loadSingleFile none dir f).1 (loadSingleFile none dir f).2 st) []
        = (files.map (loadSingleFile none dir)).foldl (fun st kv => dictInsert kv.1 kv.2 st) [] := by
    rw [List.foldl_map]
  rw [show (fun (st : List (String × Bytes)) (f : FSFile) =>
        let kv := loadSingleFile none dir f
        dictInsert kv.1 kv.2 st)
      = fun st f => dictInsert (loadSingleFile none dir f).1 (loadSingleFile none dir f).2 st from rfl]
  rw [hfold]
  have h := storedBytes_foldl_le (files.map (loadSingleFile none dir)) []
  have hsum : ((files.map (loadSingleFile none dir)).map (fun kv => kv.2.length)).sum
      = totalRawSize files := by
    rw [List.map_map]
    rfl
  rw [hsum] at h
  simpa [storedBytes] using h

end GH200

theorem flatMap_eq_nil_of {α β : Type} (l : List α) (f : α → List β)
    (h : ∀ a ∈ l, f a = []) : l.flatMap f = [] := by
  induction l with
  | nil => rfl
  | cons a rest ih =>
    simp only [List.flatMap_cons, h a (List.mem_cons_self a rest), List.nil_append]
    exact ih (fun x hx => h x (List.mem_cons_of_mem a hx))

namespace UVM

theorem applyPreferredLocation_off (w : CudaWorld) (t : UTensor) (pc : Bool)
    (h : w.enabled = false ∨ w.available = false) :
    applyPreferredLocation w t pc = (false, []) := by
  rcases h with h | h
  · simp [applyPreferredLocation, h]
  · cases he : w.enabled with
    | false => simp [applyPreferredLocation, he]
    | true => simp [applyPreferredLocation, he, h]

theorem prefetch_to_device_off (w : CudaWorld) (t : UTensor) (dev : Option Int)
    (h : w.enabled = false ∨ w.available = false) :
    prefetch_to_device w t dev = (false, []) := by
  rcases h with h | h
  · simp [prefetch_to_device, h]
  · cases he : w.enabled with
    | false => simp [prefetch_to_device, he]
    | true => simp [prefetch_to_device, he, h]

/-- When the driver-level fallback reports success, its two appended
`cudaMemAdvise` events did not raise, so no raised driver event is added
to the trace. -/
theorem cudartFallback_true_any (w : CudaWorld) (t : UTensor) (pc : Bool) (tr : List Event)
    (h : (cudartFallback w t pc tr).1 = true) :
    (cudartFallback w t pc tr).2.any (fun e => e.raised && e.isDriverCall)
      = tr.any (fun e => e.raised && e.isDriverCall) := by
  unfold cudartFallback at h ⊢
  repeat' (first | split at h | split)
  all_goals simp_all [Event.isDriverCall, List.any_append]
  all_goals repeat' (first | split at h | split)
  all_goals simp_all [Event.isDriverCall, List.any_append]

/-- When `_apply_preferred_location` reports success, no raised
driver-level event appears in its trace (the only events that may have
raised are `torch.cuda.memory_advise` calls that triggered the
fallback). -/
theorem applyPL_true_any (w : CudaWorld) (t : UTensor) (pc : Bool)
    (h : (applyPreferredLocation w t pc).1 = true) :
    (applyPreferredLocation w t pc).2.any (fun e => e.raised && e.isDriverCall) = false := by
  unfold applyPreferredLocation at h ⊢
  by_cases he : w.enabled = false
  · rw [if_pos he] at h; cases h
  · rw [if_neg he] at h ⊢
    by_cases ha : w.available = false ∨ t.isCuda = false
    · rw [if_pos ha] at h; cases h
    · rw [if_neg ha] at h ⊢
      by_cases hm : w.hasMemoryAdvise = true
      · rw [if_pos hm] at h ⊢
        dsimp only at h ⊢
        by_cases hr1 : w.torchAdviseRaises "set_preferred_location"
            (if pc then Loc.cpu else Loc.gpu (currentCudaDevice w)) = true
        · rw [if_pos hr1] at h ⊢
          rw [cudartFallback_true_any w t pc _ h]
          simp [Event.isDriverCall]
        · rw [if_neg hr1] at h ⊢
          by_cases hr2 : w.torchAdviseRaises "set_accessed_by"
              (Loc.gpu (currentCudaDevice w)) = true
          · rw [if_pos hr2] at h ⊢
            rw [cudartFallback_true_any w t pc _ h]
            simp [Event.isDriverCall]
          · rw [if_neg hr2]
            simp [Event.isDriverCall]
      · rw [if_neg hm] at h ⊢
        rw [cudartFallback_true_any w t pc _ h]
        simp

/-- When `prefetch_to_device` reports success, its single
`cudaMemPrefetchAsync` event did not raise. -/
theorem prefetch_true_any (w : CudaWorld) (t : UTensor) (d : Option Int)
    (h : (prefetch_to_device w t d).1 = true) :
    (prefetch_to_device w t d).2.any (fun e => e.raised) = false := by
  unfold prefetch_to_device at h ⊢
  by_cases he : w.enabled = false
  · rw [if_pos he] at h; cases h
  · rw [if_neg he] at h ⊢
    by_cases ha : w.available = false ∨ t.isCuda = false
    · rw [if_pos ha] at h; cases h
    · rw [if_neg ha] at h ⊢
      cases hc : w.cudart with
      | none => rw [hc] at h; dsimp only at h; cases h
      | some c =>
        rw [hc] at h
        dsimp only at h ⊢
        by_cases hsz : elementSpanBytes t ≤ 0
        · rw [if_pos hsz] at h; cases h
        · rw [if_neg hsz] at h ⊢
          cases hp : resolvePtr t with
          | none => rw [hp] at h; dsimp only at h; cases h
          | some ptr =>
            rw [hp] at h
            dsimp only at h ⊢
            by_cases hpa : c.hasPrefetchAsync = false
            · rw [if_pos hpa] at h; cases h
            · rw [if_neg hpa] at h ⊢
              cases hd : d with
              | none =>
                rw [hd] at h
                dsimp only at h ⊢
                by_cases hr : c.prefetchRaises ptr (elementSpanBytes t)
                    ((currentCudaDevice w : Nat) : Int) = true
                · rw [if_pos hr] at h; cases h
                · rw [if_neg hr] at h ⊢
                  simp only [Bool.not_eq_true] at hr
                  simp [hr]
              | some dv =>
                rw [hd] at h
                dsimp only at h ⊢
                by_cases hr : c.prefetchRaises ptr (elementSpanBytes t) dv = true
                · rw [if_pos hr] at h; cases h
                · rw [if_neg hr] at h ⊢
                  simp only [Bool.not_eq_true] at hr
                  simp [hr]

end UVM

theorem getLast?_cons_or {α : Type} (x : α) (l : List α) :
    (x :: l).getLast? = (l.getLast?).or (some x) := by
  have hx : x :: l = [x] ++ l := rfl
  rw [hx, List.getLast?_append]
  rfl

namespace GH200

/-- The scan `strContains` is exactly substring occurrence (`IsInfix` on
the character lists). -/
theorem strContains_iff_infix (hay needle : String) :
    strContains hay needle = true ↔ needle.toList <:+: hay.toList := by
  unfold strContains
  rw [List.any_eq_true]
  constructor
  · rintro ⟨i, -, hpref⟩
    rw [List.isPrefixOf_iff_prefix] at hpref
    obtain ⟨t, ht⟩ := hpref
    exact ⟨hay.toList.take i, t, by rw [List.append_assoc, ht, List.take_append_drop]⟩
  · rintro ⟨s, t, hst⟩
    have hlen : s.length ≤ hay.toList.length := by
      have := congrArg List.length hst
      simp only [List.length_append] at this
      omega
    refine ⟨s.length, List.mem_range.mpr (by omega), ?_⟩
    rw [List.isPrefixOf_iff_prefix]
    refine ⟨t, ?_⟩
    rw [← hst, List.append_assoc, List.drop_left]

end GH200

namespace Diag

/-- The parsing loop of `check_uvm_env` is a last-match-wins scan: its
final state is determined by the last part carrying each key. -/
theorem uvmEnv_foldl {F : Type} (pf : String → Option F) (parts : List String)
    (r0 : Option (F ⊕ String)) (a0 : Option String) :
    parts.foldl (uvmEnvStep pf) (r0, a0)
      = ((match (parts.filterMap (partKeyValue "uvm_oversubscription_ratio")).getLast? with
          | some v => some (match pf v with | some f => Sum.inl f | none => Sum.inr v)
          | none => r0),
         (match (parts.filterMap (partKeyValue "uvm_access_pattern")).getLast? with
          | some v => some (GH200.strLower v)
          | none => a0)) := by
  induction parts generalizing r0 a0 with
  | nil => simp
  | cons p rest ih =>
    cases hs : splitOnceColon p with
    | none =>
      have hstep : uvmEnvStep pf (r0, a0) p = (r0, a0) := by
        simp [uvmEnvStep, hs]
      have hf1 : (p :: rest).filterMap (partKeyValue "uvm_oversubscription_ratio")
          = rest.filterMap (partKeyValue "uvm_oversubscription_ratio") := by
        simp [List.filterMap_cons, partKeyValue, hs]
      have hf2 : (p :: rest).filterMap (partKeyValue "uvm_access_pattern")
          = rest.filterMap (partKeyValue "uvm_access_pattern") := by
        simp [List.filterMap_cons, partKeyValue, hs]
      rw [List.foldl_cons, hstep, ih, hf1, hf2]
    | some kv =>
      obtain ⟨k, v⟩ := kv
      by_cases h1 : GH200.strLower (GH200.strTrim k) = "uvm_oversubscription_ratio"
      · have h2 : GH200.strLower (GH200.strTrim k) ≠ "uvm_access_pattern" := by
          rw [h1]; decide
        have hstep : uvmEnvStep pf (r0, a0) p
            = ((match pf (GH200.strTrim v) with
                | some f => some (Sum.inl f)
                | none => some (Sum.inr (GH200.strTrim v))), a0) := by
          simp [uvmEnvStep, hs, h1]
        have hf1 : (p :: rest).filterMap (partKeyValue "uvm_oversubscription_ratio")
            = GH200.strTrim v :: rest.filterMap (partKeyValue "uvm_oversubscription_ratio") := by
          simp [List.filterMap_cons, partKeyValue, hs, h1]
        have hf2 : (p :: rest).filterMap (partKeyValue "uvm_access_pattern")
            = rest.filterMap (partKeyValue "uvm_access_pattern") := by
          simp [List.filterMap_cons, partKeyValue, hs, h2]
        rw [List.foldl_cons, hstep, ih, hf1, hf2, getLast?_cons_or]
        cases hgl : (rest.filterMap (partKeyValue "uvm_oversubscription_ratio")).getLast? with
        | none => cases hpf : pf (GH200.strTrim v) <;> simp [hpf]
        | some y => simp
      · by_cases h2 : GH200.strLower (GH200.strTrim k) = "uvm_access_pattern"
        · have hstep : uvmEnvStep pf (r0, a0) p
              = (r0, some (GH200.strLower (GH200.strTrim v))) := by
            simp [uvmEnvStep, hs, h1, h2]
          have hf1 : (p :: rest).filterMap (partKeyValue "uvm_oversubscription_ratio")
              = rest.filterMap (partKeyValue "uvm_oversubscription_ratio") := by
            simp [List.filterMap_cons, partKeyValue, hs, h1]
          have hf2 : (p :: rest).filterMap (partKeyValue "uvm_access_pattern")
              = GH200.strTrim v :: rest.filterMap (partKeyValue "uvm_access_pattern") := by
            simp [List.filterMap_cons, partKeyValue, hs, h2]
          rw [List.foldl_cons, hstep, ih, hf1, hf2, getLast?_cons_or]
          cases hgl : (rest.filterMap (partKeyValue "uvm_access_pattern")).getLast? with
          | none => simp
          | some y => simp
        · have hstep : uvmEnvStep pf (r0, a0) p = (r0, a0) := by
            simp [uvmEnvStep, hs, h1, h2]
          have hf1 : (p :: rest).filterMap (partKeyValue "uvm_oversubscription_ratio")
              = rest.filterMap (partKeyValue "uvm_oversubscription_ratio") := by
            simp [List.filterMap_cons, partKeyValue, hs, h1]
          have hf2 : (p :: rest).filterMap (partKeyValue "uvm_access_pattern")
              = rest.filterMap (partKeyValue "uvm_access_pattern") := by
            simp [List.filterMap_cons, partKeyValue, hs, h2]
          rw [List.foldl_cons, hstep, ih, hf1, hf2]

end Diag

/-! ## Claims -/

/-- C9: `GH200InMemoryBackend.write` raises `TypeError` on every data
argument that is not a `BytesIO`, `bytes` or `torch.Tensor`, and the
staged storage (indeed the whole backend state) is unchanged when it
raises: the type check precedes any insertion. -/
theorem C9_write_type_error (b : Backend) (identifier : String) :
    b.write identifier .other = (.error .typeError, b) := rfl

/-- C8: on a missing identifier, `read` raises `KeyError`, `read_image`
raises `FileNotFoundError` (converting the inner `KeyError`), `torch_load`
lets the `KeyError` propagate, and `delete` is a no-op that leaves the
backend unchanged. -/
theorem C8_missing_identifier (b : Backend) (identifier filepath fname : String)
    (io : Bool)
    (h1 : dictGet identifier b.storage = none)
    (h2 : dictGet (relativeKey b.instance_data_dir filepath) b.storage = none)
    (h3 : dictGet (relativeKey b.instance_data_dir fname) b.storage = none) :
    (b.read identifier io).1 = .error (.keyError identifier)
    ∧ (b.read_image filepath).1 = .error (.fileNotFoundError filepath)
    ∧ (b.torch_load fname).1
        = .error (.keyError (relativeKey b.instance_data_dir fname))
    ∧ b.delete identifier = b := by
  refine ⟨?_, ?_, ?_, ?_⟩
  · simp [Backend.read, h1]
  · simp [Backend.read_image, Backend.read, h2]
  · simp [Backend.torch_load, Backend.read, h3]
  · simp [Backend.delete, dictErase_absent _ _ h1]

/-- Witness for C8 at a concrete backend and concrete missing keys. -/
theorem C8_missing_identifier_witness :
    (sampleBackend.read "zzz" false).1 = .error (.keyError "zzz")
    ∧ (sampleBackend.read_image "/d/m.png").1 = .error (.fileNotFoundError "/d/m.png")
    ∧ (sampleBackend.torch_load "/d/n.pt").1
        = .error (.keyError (relativeKey "/d" "/d/n.pt"))
    ∧ sampleBackend.delete "zzz" = sampleBackend :=
  C8_missing_identifier sampleBackend "zzz" "/d/m.png" "/d/n.pt" false rfl rfl rfl

/-- C3: the backend never evicts.  Every read-only operation returns the
backend state unchanged, and `write`/`delete` of an identifier leave
every entry with a different identifier untouched: an entry disappears or
is replaced only through an explicit `delete`/`write` of its own key. -/
theorem C3_no_eviction (b : Backend) (identifier k mode fp fn : String) (io : Bool)
    (exts : List String) (sp : Option String) (d : WriteData)
    (hk : k ≠ identifier) :
    (b.read identifier io).2 = b
    ∧ (b.existsKey identifier).2 = b
    ∧ (b.open_file identifier mode).2 = b
    ∧ (b.list_files exts).2 = b
    ∧ (b.read_image fp).2 = b
    ∧ (b.torch_load fn).2 = b
    ∧ (b.get_abs_path sp).2 = b
    ∧ dictGet k ((b.write identifier d).2).storage = dictGet k b.storage
    ∧ dictGet k (b.delete identifier).storage = dictGet k b.storage := by
  refine ⟨rfl, rfl, rfl, rfl, rfl, rfl, rfl, ?_, ?_⟩
  · cases d <;> simp [Backend.write, Backend.writePayload, dictGet_dictInsert, hk]
  · simp [Backend.delete, dictGet_dictErase_ne _ _ _ hk]

/-- Witness for C3 at concrete arguments. -/
theorem C3_no_eviction_witness :
    (sampleBackend.read "a.png" false).2 = sampleBackend
    ∧ (sampleBackend.existsKey "a.png").2 = sampleBackend
    ∧ (sampleBackend.open_file "a.png" "rb").2 = sampleBackend
    ∧ (sampleBackend.list_files []).2 = sampleBackend
    ∧ (sampleBackend.read_image "/d/a.png").2 = sampleBackend
    ∧ (sampleBackend.torch_load "/d/a.png").2 = sampleBackend
    ∧ (sampleBackend.get_abs_path none).2 = sampleBackend
    ∧ dictGet "a.png" ((sampleBackend.write "k2" (.bytes [9])).2).storage
        = dictGet "a.png" sampleBackend.storage
    ∧ dictGet "a.png" (sampleBackend.delete "k2").storage
        = dictGet "a.png" sampleBackend.storage :=
  C3_no_eviction sampleBackend "k2" "a.png" "rb" "/d/a.png" "/d/a.png" false []
    none (.bytes [9]) (by decide)

/-- C10: `gh200_uvm_enabled` returns the override whenever
`set_uvm_hint_override` was last called with a boolean, regardless of the
environment; after `set_uvm_hint_override None` it is `true` exactly when
the `SIMPLETUNER_GH200_ENABLE_UVM_HINTS` value, stripped and lowercased,
is one of `"1"`, `"true"`, `"yes"`, `"on"`. -/
theorem C10_override_behavior (v : Bool) (env : Option String) :
    gh200_uvm_enabled (set_uvm_hint_override (some v)) env = v
    ∧ (gh200_uvm_enabled (set_uvm_hint_override none) env = true
        ↔ strLower (strTrim (env.getD "")) ∈ (["1", "true", "yes", "on"] : List String)) := by
  refine ⟨rfl, ?_⟩
  simp [gh200_uvm_enabled, set_uvm_hint_override, truthyFlag, List.contains]

/-- C1: for every identifier and bytes payload, `write` followed by `read`
returns exactly the payload, under every compression setting
`_resolve_compression` can configure (none, zlib, lz4, snappy): `write`
stores the compressed payload, `read` decompresses it with the matching
function from the same library, and the pair is an identity given the
library's decompress-of-compress identity. -/
theorem C1_write_read_roundtrip (libs : CompressionLibs)
    (hz : ∀ x, libs.zlib.decompress (libs.zlib.compress x) = x)
    (hl : ∀ l, libs.lz4 = some l → ∀ x, l.decompress (l.compress x) = x)
    (hs : ∀ l, libs.snappy = some l → ∀ x, l.decompress (l.compress x) = x)
    (name : Option String) (c d : Option (Bytes → Bytes)) (nm : String)
    (hres : resolve_compression libs name = .ok (c, d, nm))
    (b : Backend) (hc : b.compressFn = c) (hd : b.decompressFn = d)
    (identifier : String) (payload : Bytes) :
    (((b.write identifier (.bytes payload)).2).read identifier false).1
      = .ok (.bytes payload) := by
  have hkey : dictGet identifier
      (dictInsert identifier (applyCompress b.compressFn payload) b.storage)
      = some (applyCompress b.compressFn payload) := by
    simp [dictGet_dictInsert]
  have hround : applyDecompress d (applyCompress c payload) = payload := by
    match name with
    | none =>
      simp only [resolve_compression] at hres
      cases Except.ok.inj hres
      simp [applyCompress, applyDecompress]
    | some s =>
      simp only [resolve_compression] at hres
      by_cases hse : s = ""
      · rw [if_pos hse] at hres
        cases Except.ok.inj hres
        simp [applyCompress, applyDecompress]
      · rw [if_neg hse] at hres
        by_cases h1 : strLower (strTrim s) = "zlib"
        · rw [if_pos h1] at hres
          cases Except.ok.inj hres
          simpa [applyCompress, applyDecompress] using hz payload
        · rw [if_neg h1] at hres
          by_cases h2 : strLower (strTrim s) = "lz4"
          · rw [if_pos h2] at hres
            match hll : libs.lz4 with
            | none => rw [hll] at hres; cases hres
            | some l =>
              rw [hll] at hres
              cases Except.ok.inj hres
              simpa [applyCompress, applyDecompress] using hl l hll payload
          · rw [if_neg h2] at hres
            by_cases h3 : strLower (strTrim s) = "snappy"
            · rw [if_pos h3] at hres
              match hsl : libs.snappy with
              | none => rw [hsl] at hres; cases hres
              | some l =>
                rw [hsl] at hres
                cases Except.ok.inj hres
                simpa [applyCompress, applyDecompress] using hs l hsl payload
            · rw [if_neg h3] at hres; cases hres
  rw [hc] at hkey
  simp [Backend.write, Backend.writePayload, Backend.read, hc, hd, hkey, hround]

/-- Witness for C1 at a concrete backend and payload (compression setting
`None`, libraries instantiated by the identity pair). -/
theorem C1_write_read_roundtrip_witness :
    ((sampleBackend.write "k" (.bytes [1, 2, 3])).2.read "k" false).1
      = .ok (.bytes [1, 2, 3]) :=
  C1_write_read_roundtrip identityLibs (fun _ => rfl) (fun _ h => by cases h; exact fun _ => rfl)
    (fun _ h => by cases h; exact fun _ => rfl) none none none "none" rfl
    sampleBackend rfl rfl "k" [1, 2, 3]

/-- C5: when GH200 UVM hints are not enabled or CUDA is not available,
`prefer_cpu_residency`, `prefer_gpu_residency` and `prefetch_to_device`
return `False` performing no CUDA runtime operation (empty call trace),
and `optimize_batch_for_gh200` returns without touching any tensor. -/
theorem C5_disabled_no_ops (w : CudaWorld) (t : UTensor) (dev : Option Int)
    (batch : List (String × PyVal))
    (h : w.enabled = false ∨ w.available = false) :
    prefer_cpu_residency w t = (false, [])
    ∧ prefer_gpu_residency w t = (false, [])
    ∧ prefetch_to_device w t dev = (false, [])
    ∧ optimize_batch_for_gh200 w batch = [] := by
  have hA : ∀ (t' : UTensor) (pc : Bool), applyPreferredLocation w t' pc = (false, []) :=
    fun t' pc => applyPreferredLocation_off w t' pc h
  have hP : ∀ (t' : UTensor) (d : Option Int), prefetch_to_device w t' d = (false, []) :=
    fun t' d => prefetch_to_device_off w t' d h
  refine ⟨hA t true, hA t false, hP t dev, ?_⟩
  cases he : w.enabled with
  | false => simp [optimize_batch_for_gh200, he]
  | true =>
    have hlat :
        (iterTensorsOpt (batchGet batch "latents")).flatMap
          (fun t' => (prefer_cpu_residency w t').2) = [] :=
      flatMap_eq_nil_of _ _ (fun a _ => by simp [prefer_cpu_residency, hA])
    have hkeys : ∀ key : String,
        (iterTensorsOpt (batchGet batch key)).flatMap
          (fun t' => (prefer_gpu_residency w t').2 ++ (prefetch_to_device w t' none).2)
          = [] :=
      fun key =>
        flatMap_eq_nil_of _ _ (fun a _ => by simp [prefer_gpu_residency, hA, hP])
    simp [optimize_batch_for_gh200, he, hlat, hkeys]

/-- Witness for C5 at a concrete disabled world and concrete batch. -/
theorem C5_disabled_no_ops_witness :
    prefer_cpu_residency disabledWorld sampleTensor = (false, [])
    ∧ prefer_gpu_residency disabledWorld sampleTensor = (false, [])
    ∧ prefetch_to_device disabledWorld sampleTensor none = (false, [])
    ∧ optimize_batch_for_gh200 disabledWorld [("latents", .tensor sampleTensor)] = [] :=
  C5_disabled_no_ops disabledWorld sampleTensor none
    [("latents", .tensor sampleTensor)] (Or.inl rfl)

/-- C6 counterexample: in `torchRaisesWorld` the underlying
`torch.cuda.memory_advise` call raises (the trace records a raised
event), yet `prefer_cpu_residency` falls back to the driver path, which
succeeds, and returns `True` — so "on any such failure they return
False" is false as stated. -/
theorem C6_counterexample :
    (prefer_cpu_residency torchRaisesWorld sampleTensor).1 = true
    ∧ (prefer_cpu_residency torchRaisesWorld sampleTensor).2.any
        (fun e => e.raised) = true :=
  ⟨rfl, rfl⟩

/-- C6 amended: the hint functions are total (always return a boolean;
exceptions are modelled as values, never propagated).
`prefetch_to_device` returns `False` whenever its underlying
`cudaMemPrefetchAsync` call raised, and `prefer_cpu_residency` /
`prefer_gpu_residency` (both `_apply_preferred_location`) return `False`
whenever a driver-level `cudaMemAdvise` call raised; an exception from
`torch.cuda.memory_advise` is only swallowed into the fallback to the
driver path, which may still succeed. -/
theorem C6_best_effort_amended (w : CudaWorld) (t : UTensor) (pc : Bool) (d : Option Int) :
    ((applyPreferredLocation w t pc).2.any (fun e => e.raised && e.isDriverCall) = true
      → (applyPreferredLocation w t pc).1 = false)
    ∧ ((prefetch_to_device w t d).2.any (fun e => e.raised) = true
      → (prefetch_to_device w t d).1 = false)
    ∧ prefer_cpu_residency w t = applyPreferredLocation w t true
    ∧ prefer_gpu_residency w t = applyPreferredLocation w t false := by
  refine ⟨?_, ?_, rfl, rfl⟩
  · intro hraised
    cases hres : (applyPreferredLocation w t pc).1 with
    | false => rfl
    | true => rw [applyPL_true_any w t pc hres] at hraised; cases hraised
  · intro hraised
    cases hres : (prefetch_to_device w t d).1 with
    | false => rfl
    | true => rw [prefetch_true_any w t d hres] at hraised; cases hraised

/-- Witness for the amended C6 at concrete worlds whose driver calls
raise. -/
theorem C6_best_effort_amended_witness :
    (applyPreferredLocation driverRaisesWorld sampleTensor true).1 = false
    ∧ (prefetch_to_device prefetchRaisesWorld sampleTensor none).1 = false :=
  ⟨(C6_best_effort_amended driverRaisesWorld sampleTensor true none).1 (by decide),
   (C6_best_effort_amended prefetchRaisesWorld sampleTensor true none).2.1 (by decide)⟩

/-- C7: `check_uvm_env` reports `enabled` exactly when the substring
`"use_uvm:True"` occurs case-sensitively in `PYTORCH_CUDA_ALLOC_CONF`;
from the comma-separated `key:value` parts it returns the (last)
`uvm_oversubscription_ratio` value parsed by the float parser, keeping
the raw stripped string when parsing fails, and the (last)
`uvm_access_pattern` value lowercased, both `none` when the key is
absent. -/
theorem C7_check_uvm_env {F : Type} (pf : String → Option F) (conf : String) :
    ((check_uvm_env pf conf).enabled = true ↔ "use_uvm:True".toList <:+: conf.toList)
    ∧ (check_uvm_env pf conf).ratio
        = (keyedValues "uvm_oversubscription_ratio" conf).getLast?.map
            (fun v => match pf v with | some f => Sum.inl f | none => Sum.inr v)
    ∧ (check_uvm_env pf conf).accessPattern
        = (keyedValues "uvm_access_pattern" conf).getLast?.map GH200.strLower := by
  refine ⟨GH200.strContains_iff_infix conf "use_uvm:True", ?_, ?_⟩
  · unfold check_uvm_env keyedValues
    dsimp only
    by_cases hc : conf = ""
    · subst hc
      simp [GH200.splitOnChar, partKeyValue, splitOnceColon, splitFirstColon]
    · rw [if_neg hc, uvmEnv_foldl]
      cases hgl : (((GH200.splitOnChar ',' conf.toList).map String.mk).filterMap
          (partKeyValue "uvm_oversubscription_ratio")).getLast? with
      | none => simp
      | some y => simp
  · unfold check_uvm_env keyedValues
    dsimp only
    by_cases hc : conf = ""
    · subst hc
      simp [GH200.splitOnChar, partKeyValue, splitOnceColon, splitFirstColon]
    · rw [if_neg hc, uvmEnv_foldl]
      cases hgl : (((GH200.splitOnChar ',' conf.toList).map String.mk).filterMap
          (partKeyValue "uvm_access_pattern")).getLast? with
      | none => simp
      | some y => simp

/-- C2: when construction succeeds, every file under `instance_data_dir`
matched by the configured extension patterns is staged: the storage maps
the file's path relative to `instance_data_dir` to its contents
(compressed when compression is configured), and `read` of that key
serves the original contents purely from the in-memory storage (the
`read` embedding takes no filesystem argument at all). -/
theorem C2_construction_stages (libs : CompressionLibs) (defaultExts : List String)
    (fs : FileSystem) (cfg : Config) (b : Backend)
    (hnd : (fs.files.map (·.path)).Nodup)
    (hinit : initBackend libs defaultExts fs cfg = .ok b)
    (f : FSFile) (hf : f ∈ fs.files)
    (hunder : isUnder cfg.instance_data_dir f.path = true)
    (hext : extMatch ((cfg.file_extensions.getD defaultExts).map normalizeExt) f.path = true)
    (hround : ∀ x, applyDecompress b.decompressFn (applyCompress b.compressFn x) = x) :
    dictGet (stripDir cfg.instance_data_dir f.path) b.storage
      = some (applyCompress b.compressFn f.contents)
    ∧ (b.read (stripDir cfg.instance_data_dir f.path) false).1
      = .ok (.bytes f.contents) := by
  unfold initBackend at hinit
  cases hres : resolve_compression libs cfg.compression with
  | error e => rw [hres] at hinit; cases hinit
  | ok cdn =>
    obtain ⟨c, dm, nm⟩ := cdn
    rw [hres] at hinit
    dsimp only at hinit
    by_cases hdir : fs.dirs.contains cfg.instance_data_dir = false
    · rw [if_pos hdir] at hinit; cases hinit
    · rw [if_neg hdir] at hinit
      have hmem : f ∈ gatherFiles fs cfg.instance_data_dir
          ((cfg.file_extensions.getD defaultExts).map normalizeExt) :=
        List.mem_filter.mpr ⟨hf, by simp [hunder, hext]⟩
      by_cases hemp : (gatherFiles fs cfg.instance_data_dir
          ((cfg.file_extensions.getD defaultExts).map normalizeExt)).isEmpty = true
      · have : gatherFiles fs cfg.instance_data_dir
            ((cfg.file_extensions.getD defaultExts).map normalizeExt) = [] := by
          simpa using hemp
        rw [this] at hmem
        simp at hmem
      · rw [if_neg hemp] at hinit
        by_cases hlim : limitExceeded cfg.memoryLimitBytes
            (totalRawSize (gatherFiles fs cfg.instance_data_dir
              ((cfg.file_extensions.getD defaultExts).map normalizeExt))) = true
        · rw [if_pos hlim] at hinit; cases hinit
        · rw [if_neg hlim] at hinit
          have hb := (Except.ok.inj hinit).symm
          subst hb
          have hsub : (gatherFiles fs cfg.instance_data_dir
              ((cfg.file_extensions.getD defaultExts).map normalizeExt)).Sublist fs.files :=
            List.filter_sublist _
          have hndp : ((gatherFiles fs cfg.instance_data_dir
              ((cfg.file_extensions.getD defaultExts).map normalizeExt)).map (·.path)).Nodup :=
            List.Nodup.sublist (hsub.map _) hnd
          have hinj : ∀ x ∈ gatherFiles fs cfg.instance_data_dir
                ((cfg.file_extensions.getD defaultExts).map normalizeExt),
              ∀ y ∈ gatherFiles fs cfg.instance_data_dir
                ((cfg.file_extensions.getD defaultExts).map normalizeExt),
              stripDir cfg.instance_data_dir x.path = stripDir cfg.instance_data_dir y.path
                → x = y := by
            intro x hx y hy hxy
            have hux : isUnder cfg.instance_data_dir x.path = true := by
              have := (List.mem_filter.mp hx).2
              exact (Bool.and_eq_true .. ▸ this).1
            have huy : isUnder cfg.instance_data_dir y.path = true := by
              have := (List.mem_filter.mp hy).2
              exact (Bool.and_eq_true .. ▸ this).1
            have hpath := stripDir_injOn cfg.instance_data_dir x.path y.path hux huy hxy
            exact List.inj_on_of_nodup_map hnd (hsub.subset hx) (hsub.subset hy) hpath
          have hkeysnd : ((gatherFiles fs cfg.instance_data_dir
              ((cfg.file_extensions.getD defaultExts).map normalizeExt)).map
                (fun g => stripDir cfg.instance_data_dir g.path)).Nodup :=
            List.Nodup.map_on hinj (List.Nodup.of_map _ hndp)
          have hkey : dictGet (stripDir cfg.instance_data_dir f.path)
              (loadStorage c cfg.instance_data_dir
                (gatherFiles fs cfg.instance_data_dir
                  ((cfg.file_extensions.getD defaultExts).map normalizeExt)))
              = some (applyCompress c f.contents) := by
            rw [loadStorage_eq c cfg.instance_data_dir _ hkeysnd]
            exact dictGet_of_nodup_mem _ _ _
              (by rw [List.map_map]; exact hkeysnd)
              (List.mem_map.mpr ⟨f, hmem, rfl⟩)
          refine ⟨hkey, ?_⟩
          simp only [Backend.read, hkey]
          simpa using congrArg (fun x => (Except.ok (PyBytes.bytes x) :
            Except PyErr PyBytes)) (hround f.contents)

/-- Witness for C2 at a concrete filesystem and configuration. -/
theorem C2_construction_stages_witness :
    dictGet (stripDir "/d" "/d/a.png") sampleLoadedBackend.storage
      = some (applyCompress sampleLoadedBackend.compressFn [1, 2, 3, 4, 5])
    ∧ (sampleLoadedBackend.read (stripDir "/d" "/d/a.png") false).1
      = .ok (.bytes [1, 2, 3, 4, 5]) :=
  C2_construction_stages identityLibs [] sampleFS sampleCfg sampleLoadedBackend
    (by decide) rfl ⟨"/d/a.png", [1, 2, 3, 4, 5]⟩ (List.mem_singleton.mpr rfl)
    (by decide) (by decide) (fun _ => rfl)

/-- C4 counterexample: the configured limit `memory_limit_gb = 0.0` gives
`_memory_limit_bytes = 0`, which Python truthiness treats as unset
(`if self._memory_limit_bytes and ...`), so although the discovered
files total 5 raw bytes — exceeding the 0-byte limit — construction does
not raise `MemoryError`: it succeeds and stages all 5 bytes, which also
exceed the configured limit. -/
theorem C4_counterexample :
    zeroLimitCfg.memoryLimitBytes = some 0
    ∧ totalRawSize (gatherFiles sampleFS "/d" (["png"].map normalizeExt)) = 5
    ∧ initBackend identityLibs [] sampleFS zeroLimitCfg = .ok zeroLimitBackend
    ∧ storedBytes zeroLimitBackend.storage = 5 :=
  ⟨rfl, rfl, rfl, rfl⟩

/-- C4 amended: when the configured byte limit is nonzero, construction
raises `MemoryError` as soon as the discovered files' total raw size
exceeds the limit (nothing is staged: no backend is produced), and when
construction succeeds without compression the staged bytes never exceed
the limit.  (A zero limit disables the check, and `write` after
construction is not limited, as the counterexample shows.) -/
theorem C4_memory_limit_amended (libs : CompressionLibs) (defaultExts : List String)
    (fs : FileSystem) (cfg : Config) (L : Nat)
    (c d : Option (Bytes → Bytes)) (nm : String)
    (hres : resolve_compression libs cfg.compression = .ok (c, d, nm))
    (hdir : fs.dirs.contains cfg.instance_data_dir = true)
    (hL : cfg.memoryLimitBytes = some L) (hL0 : L ≠ 0) :
    (totalRawSize (gatherFiles fs cfg.instance_data_dir
        ((cfg.file_extensions.getD defaultExts).map normalizeExt)) > L
      → initBackend libs defaultExts fs cfg = .error .memoryError)
    ∧ (∀ b : Backend, initBackend libs defaultExts fs cfg = .ok b → b.compressFn = none →
        storedBytes b.storage ≤ L) := by
  constructor
  · intro hgt
    unfold initBackend
    rw [hres]
    dsimp only
    rw [if_neg (by rw [hdir]; simp)]
    have hne : ¬ (gatherFiles fs cfg.instance_data_dir
        ((cfg.file_extensions.getD defaultExts).map normalizeExt)).isEmpty = true := by
      intro he
      have hnil : gatherFiles fs cfg.instance_data_dir
          ((cfg.file_extensions.getD defaultExts).map normalizeExt) = [] := by
        simpa using he
      rw [hnil] at hgt
      simp [totalRawSize] at hgt
    rw [if_neg hne, if_pos (by simp [limitExceeded, hL, hL0, hgt])]
  · intro b hinit hcnone
    unfold initBackend at hinit
    rw [hres] at hinit
    dsimp only at hinit
    rw [if_neg (by rw [hdir]; simp)] at hinit
    by_cases hemp : (gatherFiles fs cfg.instance_data_dir
        ((cfg.file_extensions.getD defaultExts).map normalizeExt)).isEmpty = true
    · rw [if_pos hemp] at hinit
      have hb := (Except.ok.inj hinit).symm
      subst hb
      simp [storedBytes]
    · rw [if_neg hemp] at hinit
      by_cases hlim : limitExceeded cfg.memoryLimitBytes
          (totalRawSize (gatherFiles fs cfg.instance_data_dir
            ((cfg.file_extensions.getD defaultExts).map normalizeExt))) = true
      · rw [if_pos hlim] at hinit; cases hinit
      · rw [if_neg hlim] at hinit
        have hb := (Except.ok.inj hinit).symm
        subst hb
        have hcn : c = none := by simpa using hcnone
        subst hcn
        have h1 := storedBytes_loadStorage_none_le cfg.instance_data_dir
          (gatherFiles fs cfg.instance_data_dir
            ((cfg.file_extensions.getD defaultExts).map normalizeExt))
        have h2 : totalRawSize (gatherFiles fs cfg.instance_data_dir
            ((cfg.file_extensions.getD defaultExts).map normalizeExt)) ≤ L := by
          rw [limitExceeded.eq_def, hL] at hlim
          simp only [Bool.and_eq_true, decide_eq_true_eq, not_and] at hlim
          by_contra hgt
          exact hlim hL0 (by omega)
        simpa using le_trans h1 h2

/-- Witness for the amended C4: with a 3-byte limit and 5 raw bytes on
disk, construction raises `MemoryError`. -/
theorem C4_memory_limit_amended_witness :
    (totalRawSize (gatherFiles sampleFS "/d" (["png"].map normalizeExt)) > 3
      → initBackend identityLibs [] sampleFS smallLimitCfg = .error .memoryError)
    ∧ (∀ b : Backend, initBackend identityLibs [] sampleFS smallLimitCfg = .ok b →
        b.compressFn = none → storedBytes b.storage ≤ 3) :=
  C4_memory_limit_amended identityLibs [] sampleFS smallLimitCfg 3 none none "none"
    rfl rfl rfl (by decide)
